import Mathlib

/-!
Verification of the prettycat terminal re-coloring pipeline.

Shallow embedding of the Rust sources:
  - src/console/ansi_parsing.rs   (escape-sequence classifier)
  - src/console/console_color.rs  (RGB color model, palette quantization)
  - src/console/console_elem.rs   (incremental console-element decoder and stream driver)
  - src/stream_colors.rs          (positional re-coloring engine)

Byte strings are modelled as `List Nat` with values < 256; machine integers
(`u8`, `u16`, `u32`, `usize`, `isize`) are modelled as `Nat`/`Int` with explicit
wrapping (`% 2 ^ w`) exactly where the Rust code performs a wrapping cast.
Rust panics (out-of-bounds or non-char-boundary string slicing) are modelled
explicitly by a `crash` outcome.
-/

namespace PrettyCat

/-- usize modulus: the Rust build targets 64-bit `usize`/`isize`. -/
def USIZE : Nat := 2 ^ 64

/-- Models Rust's wrapping cast `i as usize` for `i : isize`
(two's-complement reinterpretation). -/
def isizeToUsize (i : Int) : Nat := (i % (USIZE : Int)).toNat

/- ----------------------------------------------------------------
   src/console/ansi_parsing.rs
   ---------------------------------------------------------------- -/

/-- Models Rust `str::parse::<isize>` on an ASCII byte slice: an optional sign
followed by at least one decimal digit.  (Overflow of 64-bit `isize` is not
modelled; every argument parsed in this development is tiny.) -/
def parseIsize (s : List Nat) : Option Int :=
  let digits (ds : List Nat) : Option Nat :=
    if ds = [] then Option.none
    else if ds.all (fun b => 0x30 ≤ b ∧ b ≤ 0x39) then
      Option.some (ds.foldl (fun acc b => acc * 10 + (b - 0x30)) 0)
    else Option.none
  match s with
  | 0x2D :: rest => (digits rest).map (fun n => -(n : Int))
  | 0x2B :: rest => (digits rest).map (fun n => (n : Int))
  | _ => (digits s).map (fun n => (n : Int))

/-- Embeds `take_one_argument` (ansi_parsing.rs:1-15).  Note two source
peculiarities kept verbatim: an empty argument string returns `("", 0)`
ignoring `default`, and when a `;` is found the returned remainder is
`&remaining[i..]`, which still starts with the `;`. -/
def take_one_argument (remaining : List Nat) (dflt : Int) : List Nat × Int :=
  if remaining = [] then ([], 0)
  else
    match remaining.findIdx? (fun b => b = 0x3B) with
    | Option.some i =>
        (remaining.drop i, (parseIsize (remaining.take i)).getD dflt)
    | Option.none => ([], (parseIsize remaining).getD dflt)

/-- `AnsiCodeType` (ansi_parsing.rs:20-26).  `SetCursor` fields are `usize`
values (here `Nat`, produced by the wrapping cast `isizeToUsize`). -/
inductive AnsiCodeType where
  | ResetStyle
  | SetColor
  | MoveCursor (dx dy : Option Int)
  | SetCursor (col row : Option Nat)
  | Other
deriving DecidableEq, Repr

/-- isize::MIN, the sentinel `parse_ansi_type` uses for "column reset" in the
`E`/`F` arms. -/
def ISIZE_MIN : Int := -(2 ^ 63)

/-- Embeds `parse_ansi_type` (ansi_parsing.rs:29-84) over the escape
sequence's bytes.  All indexing in the source (`ansi.len()`, `&ansi[2..len-1]`,
`ansi[1..]`, `ends_with`) is byte-based on ASCII-delimited sequences, so list
operations coincide with it. -/
def parse_ansi_type (ansi : List Nat) : AnsiCodeType :=
  if ansi.length ≤ 2 then .Other
  else
    -- args = &ansi[2..ansi.len()-1]
    let args := (ansi.drop 2).take (ansi.length - 3)
    -- tail = ansi[1..]
    let tail := ansi.drop 1
    if ansi.getLast? = Option.some 0x6D then       -- ends_with 'm'
      if tail.take 2 = [0x5B, 0x33] then           -- ansi[1..].starts_with "[3"
        .SetColor
      else
        let (_, mode) := take_one_argument args 0
        if mode = 0 then .ResetStyle else .Other
    else if tail.getLast? = Option.some 0x41 then  -- 'A'
      let (_, count) := take_one_argument args 1
      .MoveCursor Option.none (Option.some (-count))
    else if tail.getLast? = Option.some 0x42 then  -- 'B'
      let (_, count) := take_one_argument args 1
      .MoveCursor Option.none (Option.some count)
    else if tail.getLast? = Option.some 0x43 then  -- 'C'
      let (_, count) := take_one_argument args 1
      .MoveCursor (Option.some count) Option.none
    else if tail.getLast? = Option.some 0x44 then  -- 'D'
      let (_, count) := take_one_argument args 1
      .MoveCursor (Option.some (-count)) Option.none
    else if tail.getLast? = Option.some 0x45 then  -- 'E'
      let (_, cols) := take_one_argument args 1
      .MoveCursor (Option.some ISIZE_MIN) (Option.some cols)
    else if tail.getLast? = Option.some 0x46 then  -- 'F'
      let (_, cols) := take_one_argument args 1
      .MoveCursor (Option.some ISIZE_MIN) (Option.some (-cols))
    else if tail.getLast? = Option.some 0x47 then  -- 'G'
      let (_, col) := take_one_argument args 1
      .SetCursor (Option.some (isizeToUsize (col - 1))) Option.none
    else if tail.getLast? = Option.some 0x48 then  -- 'H'
      let (args2, row) := take_one_argument args 1
      let (_, col) := take_one_argument args2 1
      .SetCursor (Option.some (isizeToUsize (col - 1)))
        (Option.some (isizeToUsize (row - 1)))
    else .Other

/-- The byte string "\x1b[0m". -/
def seqReset : List Nat := [0x1B, 0x5B, 0x30, 0x6D]
/-- The byte string "\x1b[38;2;10;20;30m". -/
def seqColor : List Nat :=
  [0x1B, 0x5B, 0x33, 0x38, 0x3B, 0x32, 0x3B, 0x31, 0x30, 0x3B,
   0x32, 0x30, 0x3B, 0x33, 0x30, 0x6D]
/-- The byte string "\x1b[5A". -/
def seqUp5 : List Nat := [0x1B, 0x5B, 0x35, 0x41]
/-- The byte string "\x1b[3;7H". -/
def seqHome37 : List Nat := [0x1B, 0x5B, 0x33, 0x3B, 0x37, 0x48]
/-- The byte string "\x1b[A". -/
def seqUpDefault : List Nat := [0x1B, 0x5B, 0x41]
/-- The byte string "\x1b[H". -/
def seqHomeDefault : List Nat := [0x1B, 0x5B, 0x48]
/-- The byte string "\x1b[G". -/
def seqColDefault : List Nat := [0x1B, 0x5B, 0x47]

/- ----------------------------------------------------------------
   src/console/console_color.rs
   ---------------------------------------------------------------- -/

/-- `Color(u8, u8, u8)` (console_color.rs:41); channels kept as `Nat`, with
`< 256` hypotheses standing for the `u8` type. -/
structure Color where
  r : Nat
  g : Nat
  b : Nat
deriving DecidableEq, Repr

/-- `Color::from_rgb` (console_color.rs:45-47). -/
def Color.from_rgb (r g b : Nat) : Color := ⟨r, g, b⟩

/-- `u32::abs_diff`. -/
def absDiff (a b : Nat) : Nat := (a - b) + (b - a)

/-- `Color::dist2` (console_color.rs:53-59): squared Euclidean distance over
the three channels. -/
def Color.dist2 (self other : Color) : Nat :=
  let dr := absDiff self.r other.r
  let dg := absDiff self.g other.g
  let db := absDiff self.b other.b
  dr * dr + dg * dg + db * db

/-- `Color::lookup_index` (console_color.rs:49-51). -/
def Color.lookup_index (self : Color) : Nat :=
  (self.r * 256 + self.g) * 256 + self.b

/-- `ANSI_PALETTE` (console_color.rs:7-16): the fixed 8-entry palette of
ANSI code pairs and their colors. -/
def ANSI_PALETTE : List ((Nat × Nat) × Color) :=
  [((0, 30), ⟨0, 0, 0⟩),
   ((0, 31), ⟨200, 0, 0⟩),
   ((0, 32), ⟨0, 200, 0⟩),
   ((0, 33), ⟨200, 200, 0⟩),
   ((0, 34), ⟨0, 0, 200⟩),
   ((0, 35), ⟨200, 0, 200⟩),
   ((0, 36), ⟨0, 200, 200⟩),
   ((0, 37), ⟨255, 255, 255⟩)]

/-- Models `Iterator::min_by_key`: returns the first element of the list whose
key is minimal (Rust documents that on ties the first element is returned),
`none` on an empty list. -/
def min_by_key {α : Type} (key : α → Nat) : List α → Option α
  | [] => Option.none
  | x :: xs =>
    match min_by_key key xs with
    | Option.none => Option.some x
    | Option.some y => if key x ≤ key y then Option.some x else Option.some y

/-- The palette entry the `COLOR_LOOKUP` builder (console_color.rs:20-36)
selects for color `c`: `ANSI_PALETTE.iter().min_by_key(|(_, pc)| pc.dist2(c))`.
The `expect` on the non-empty palette is modelled by `getD` (never taken). -/
def color_lookup_entry (c : Color) : (Nat × Nat) × Color :=
  (min_by_key (fun e => e.2.dist2 c) ANSI_PALETTE).getD ((0, 0), ⟨0, 0, 0⟩)

/-- The code pair stored in `COLOR_LOOKUP` at `c.lookup_index()`.  The lazily
built table is deterministic and read-only after construction, so it is
modelled as this pure function of the color. -/
def COLOR_LOOKUP_at (c : Color) : Nat × Nat := (color_lookup_entry c).1

/-- Embeds `Color::rgb_interpolate` (console_color.rs:61-74).  The fixed-point
weight `beta` stands for the Rust expression `(alpha * 255f32) as u16`: for
`alpha` in [0.0, 1.0] that cast truncates to an integer in [0, 255], with
`beta = 0` exactly at `alpha = 0.0` and `beta = 255` exactly at `alpha = 1.0`
(255f32 is exact).  The u16 products and the final `as u8` cast are modelled by
the explicit `% 2 ^ 16` and `% 2 ^ 8`. -/
def Color.rgb_interpolate (self other : Color) (beta : Nat) : Color :=
  let gamma := 255 - beta
  let ch (t o : Nat) : Nat := (t * gamma + o * beta) % 2 ^ 16 / 2 ^ 8 % 2 ^ 8
  ⟨ch self.r other.r, ch self.g other.g, ch self.b other.b⟩

/-- Channel-wise closeness used by the interpolation claim: each channel
differs by at most 1. -/
def Color.chanDistLe1 (x y : Color) : Prop :=
  absDiff x.r y.r ≤ 1 ∧ absDiff x.g y.g ≤ 1 ∧ absDiff x.b y.b ≤ 1

instance (x y : Color) : Decidable (x.chanDistLe1 y) := by
  unfold Color.chanDistLe1; infer_instance

/-- Uppercase hex digit byte for a value < 16 (format "{:>02X}"). -/
def hexDigitUpper (d : Nat) : Nat :=
  if d < 10 then 0x30 + d else 0x41 + (d - 10)

/-- Embeds the `Display` impl (console_color.rs:118-122): each channel printed
with "{:>02X}", i.e. two uppercase hex digits for a `u8` value. -/
def Color.to_hex (c : Color) : List Nat :=
  [hexDigitUpper (c.r / 16 % 16), hexDigitUpper (c.r % 16),
   hexDigitUpper (c.g / 16 % 16), hexDigitUpper (c.g % 16),
   hexDigitUpper (c.b / 16 % 16), hexDigitUpper (c.b % 16)]

/-- Value of one ASCII hex digit (`u32::from_str_radix` accepts both cases). -/
def hexDigitVal (b : Nat) : Option Nat :=
  if 0x30 ≤ b ∧ b ≤ 0x39 then Option.some (b - 0x30)
  else if 0x41 ≤ b ∧ b ≤ 0x46 then Option.some (b - 0x41 + 10)
  else if 0x61 ≤ b ∧ b ≤ 0x66 then Option.some (b - 0x61 + 10)
  else Option.none

/-- Accumulating hex parse over the digit bytes. -/
def parseHexAux (acc : Nat) : List Nat → Option Nat
  | [] => Option.some acc
  | b :: rest =>
    match hexDigitVal b with
    | Option.some d => parseHexAux (acc * 16 + d) rest
    | Option.none => Option.none

/-- Models `u32::from_str_radix(value, 16)` on the strings at hand: at least
one hex digit, most significant first (a leading sign and u32 overflow cannot
occur on the 6-digit strings produced by `Display`). -/
def parseHexNat (s : List Nat) : Option Nat :=
  if s = [] then Option.none else parseHexAux 0 s

/-- Embeds the `FromStr` impl (console_color.rs:100-115): exactly 6
characters, parsed as hex, split into channels (`as u8` casts modelled by
`% 256`; the quotients are already < 256 for 6-digit values). -/
def Color.from_str (s : List Nat) : Option Color :=
  if s.length ≠ 6 then Option.none
  else
    (parseHexNat s).map (fun int =>
      Color.from_rgb (int / 256 / 256 % 256) (int / 256 % 256 % 256) (int % 256 % 256))

/- ----------------------------------------------------------------
   UTF-8 (std::str::from_utf8) and characters
   ---------------------------------------------------------------- -/

/-- Outcome of `std::str::from_utf8`: `valid`, or the byte offset of the first
ill-formed sequence (`valid_up_to`) together with `error_len` — `some n` for a
definite error of `n` bytes, `none` when the input ends with an incomplete but
so-far-plausible multi-byte sequence. -/
inductive Utf8Result where
  | valid
  | error (validUpTo : Nat) (errorLen : Option Nat)
deriving DecidableEq, Repr

/-- Embeds the validation loop behind `std::str::from_utf8`
(core::str::validations::run_utf8_validation), reporting `valid_up_to` and
`error_len` exactly as Rust does: second-byte ranges depend on the leading
byte (0xE0 ⇒ A0..BF, 0xED ⇒ 80..9F, 0xF0 ⇒ 90..BF, 0xF4 ⇒ 80..8F), a
missing continuation at end of input gives `error_len = none`, an invalid one
gives the length of the valid prefix of the sequence. -/
def utf8ValidateFrom (ofs : Nat) : List Nat → Utf8Result
  | [] => .valid
  | w :: rest =>
    if w ≤ 0x7F then utf8ValidateFrom (ofs + 1) rest
    else if 0xC2 ≤ w ∧ w ≤ 0xDF then
      match rest with
      | [] => .error ofs Option.none
      | b1 :: rest1 =>
        if 0x80 ≤ b1 ∧ b1 ≤ 0xBF then utf8ValidateFrom (ofs + 2) rest1
        else .error ofs (Option.some 1)
    else if 0xE0 ≤ w ∧ w ≤ 0xEF then
      match rest with
      | [] => .error ofs Option.none
      | b1 :: rest1 =>
        if (if w = 0xE0 then 0xA0 else 0x80) ≤ b1 ∧
            b1 ≤ (if w = 0xED then 0x9F else 0xBF) then
          match rest1 with
          | [] => .error ofs Option.none
          | b2 :: rest2 =>
            if 0x80 ≤ b2 ∧ b2 ≤ 0xBF then utf8ValidateFrom (ofs + 3) rest2
            else .error ofs (Option.some 2)
        else .error ofs (Option.some 1)
    else if 0xF0 ≤ w ∧ w ≤ 0xF4 then
      match rest with
      | [] => .error ofs Option.none
      | b1 :: rest1 =>
        if (if w = 0xF0 then 0x90 else 0x80) ≤ b1 ∧
            b1 ≤ (if w = 0xF4 then 0x8F else 0xBF) then
          match rest1 with
          | [] => .error ofs Option.none
          | b2 :: rest2 =>
            if 0x80 ≤ b2 ∧ b2 ≤ 0xBF then
              match rest2 with
              | [] => .error ofs Option.none
              | b3 :: rest3 =>
                if 0x80 ≤ b3 ∧ b3 ≤ 0xBF then utf8ValidateFrom (ofs + 4) rest3
                else .error ofs (Option.some 3)
            else .error ofs (Option.some 2)
        else .error ofs (Option.some 1)
    else .error ofs (Option.some 1)

/-- `std::str::from_utf8` on the whole slice. -/
def utf8Validate (s : List Nat) : Utf8Result := utf8ValidateFrom 0 s

/-- First UTF-8 scalar of a byte list known to be valid UTF-8:
(code point, byte length).  Used to model `str::chars().next()`. -/
def utf8FirstChar : List Nat → Option (Nat × Nat)
  | [] => Option.none
  | w :: rest =>
    if w ≤ 0x7F then Option.some (w, 1)
    else if w ≤ 0xDF then
      match rest with
      | b1 :: _ => Option.some ((w % 0x20) * 0x40 + b1 % 0x40, 2)
      | [] => Option.none
    else if w ≤ 0xEF then
      match rest with
      | b1 :: b2 :: _ =>
        Option.some (((w % 0x10) * 0x40 + b1 % 0x40) * 0x40 + b2 % 0x40, 3)
      | _ => Option.none
    else
      match rest with
      | b1 :: b2 :: b3 :: _ =>
        Option.some ((((w % 8) * 0x40 + b1 % 0x40) * 0x40 + b2 % 0x40) * 0x40 + b3 % 0x40, 4)
      | _ => Option.none

/-- UTF-8 encoding of a scalar value (used for the bytes a `char` contributes
to the output, e.g. `write!(output, "{c}")`). -/
def utf8Encode (c : Nat) : List Nat :=
  if c < 0x80 then [c]
  else if c < 0x800 then [0xC0 + c / 0x40, 0x80 + c % 0x40]
  else if c < 0x10000 then
    [0xE0 + c / 0x1000, 0x80 + c / 0x40 % 0x40, 0x80 + c % 0x40]
  else
    [0xF0 + c / 0x40000, 0x80 + c / 0x1000 % 0x40, 0x80 + c / 0x40 % 0x40,
     0x80 + c % 0x40]

/- ----------------------------------------------------------------
   src/console/console_elem.rs
   ---------------------------------------------------------------- -/

/-- `ConsoleElem` (console_elem.rs:8-17).  The borrowed slices are modelled by
owned byte lists; `OtherNonPrinting` carries the char's code point. -/
inductive ConsoleElem where
  | Newline
  | CarriageReturn
  | Tab
  | OtherNonPrinting (c : Nat)
  | Ansi (s : List Nat)
  | Grapheme (s : List Nat)
  | NonUTF8Data (b : Nat)
deriving DecidableEq, Repr

/-- The underlying input bytes of one element. -/
def elemBytes : ConsoleElem → List Nat
  | .Newline => [0x0A]
  | .CarriageReturn => [0x0D]
  | .Tab => [0x09]
  | .OtherNonPrinting c => utf8Encode c
  | .Ansi s => s
  | .Grapheme s => s
  | .NonUTF8Data b => [b]

/-- Concatenation of the underlying bytes of a list of elements. -/
def elemsBytes (es : List ConsoleElem) : List Nat :=
  es.foldr (fun e acc => elemBytes e ++ acc) []

/-- `KnownSegment` (console_elem.rs:24-28). -/
inductive KnownSegment where
  | none
  | rawBytes (bs : List Nat)
  | validUtf8 (s : List Nat)
deriving DecidableEq, Repr

/-- The bytes a `KnownSegment` still holds. -/
def segBytes : KnownSegment → List Nat
  | .none => []
  | .rawBytes bs => bs
  | .validUtf8 s => s

/-- `IterElements` (console_elem.rs:41-45). -/
structure IterElements where
  remaining : List Nat
  known_segment : KnownSegment
  true_end : Bool
deriving DecidableEq, Repr

/-- `IterElements::new` (console_elem.rs:49-55). -/
def IterElements.new (bytes : List Nat) (true_end : Bool) : IterElements :=
  ⟨bytes, .none, true_end⟩

/-- Outcome of a decode step: a result, the `NeedMoreData` signal, or a Rust
panic (modelled explicitly as `crash`). -/
inductive StepOut (α : Type) where
  | ok (a : α)
  | needMoreData
  | crash
deriving DecidableEq, Repr

/-- Embeds `IterElements::try_fetch_next_known` (console_elem.rs:62-86): move
the maximal valid-UTF-8 prefix (or the definite-error bytes) of `remaining`
into `known_segment`; `NeedMoreData` when the buffer is one possibly
incomplete multi-byte sequence (`valid_up_to = 0`, `error_len = none`).
Note the source never consults `true_end` here. -/
def IterElements.try_fetch_next_known (it : IterElements) : StepOut IterElements :=
  match utf8Validate it.remaining with
  | .valid =>
    .ok { it with known_segment := .validUtf8 it.remaining, remaining := [] }
  | .error validUpTo errorLen =>
    if 0 < validUpTo then
      .ok { it with
            known_segment := .validUtf8 (it.remaining.take validUpTo),
            remaining := it.remaining.drop validUpTo }
    else
      match errorLen with
      | Option.some len =>
        .ok { it with
              known_segment := .rawBytes (it.remaining.take len),
              remaining := it.remaining.drop len }
      | Option.none => .needMoreData

/-- Modelled from the spec: the byte length of the first extended grapheme
cluster found by the external `unicode_segmentation` crate's
`grapheme_indices(true)` (locale-independent UAX #29 segmentation; the crate
is not part of this repository).  Exact for ASCII text — a CR LF pair is one
two-byte cluster and every other ASCII character is its own cluster — which is
the only text reaching the grapheme path in the concrete runs below; a leading
non-ASCII character is treated as one cluster per code point. -/
def first_grapheme_len : List Nat → Nat
  | [] => 0
  | b :: rest =>
    if b = 0x0D ∧ rest.head? = Option.some 0x0A then 2
    else
      match utf8FirstChar (b :: rest) with
      | Option.some (_, n) => n
      | Option.none => 1

/-- The escape-sequence scan loop of `consume_from_utf8`
(console_elem.rs:110-117).  Each iteration reads the next char, increments the
char count and executes `remaining = &remaining[1..]` — a byte-indexed str
slice that panics (`crash`) whenever the first char is longer than one byte —
then stops inclusively at the first char above 0x40 that is not `[` or comes
after position 2.  Returns (chars consumed, rest, terminator found). -/
def esc_scan : List Nat → Nat → StepOut (Nat × List Nat × Bool)
  | [], length => .ok (length, [], false)
  | w :: rest, length =>
    match utf8FirstChar (w :: rest) with
    | Option.none => .ok (length, w :: rest, false)  -- unreachable on valid UTF-8
    | Option.some (c, clen) =>
      if clen ≠ 1 then .crash  -- byte index 1 is not a char boundary
      else
        let length1 := length + 1
        if 0x40 < c ∧ (c ≠ 0x5B ∨ 2 < length1) then .ok (length1, rest, true)
        else esc_scan rest length1

/-- Embeds `IterElements::consume_from_utf8` (console_elem.rs:88-165).
Requires `known_segment` to be `ValidUtf8` (the source `panic!()`s
otherwise). -/
def IterElements.consume_from_utf8 (it : IterElements) :
    StepOut (ConsoleElem × IterElements) :=
  match it.known_segment with
  | .validUtf8 s =>
    -- line 158: the leftover text goes back into known_segment
    let put (rem : List Nat) (e : ConsoleElem) : StepOut (ConsoleElem × IterElements) :=
      .ok (e, { it with known_segment :=
                  if rem = [] then .none else .validUtf8 rem })
    if s.take 1 = [0x0A] then put (s.drop 1) .Newline
    else if s.take 1 = [0x0D] then put (s.drop 1) .CarriageReturn
    else if s.take 1 = [0x09] then put (s.drop 1) .Tab
    else if s.take 1 = [0x1B] then
      match esc_scan s 0 with
      | .crash => .crash
      | .needMoreData => .needMoreData  -- esc_scan never returns this
      | .ok (length, rem, valid_end) =>
        if ¬valid_end ∧ ¬it.true_end then .needMoreData  -- cancels the consumption
        else put rem (.Ansi (s.take length))
    else
      match utf8FirstChar s with
      | Option.none => .needMoreData  -- chars().next() on empty text
      | Option.some (c, _) =>
        if c ≤ 0x1F ∨ c = 0x7F then   -- char::is_ascii_control
          put (s.drop 1) (.OtherNonPrinting c)
        else
          let glen := first_grapheme_len s
          if glen < s.length then     -- a second cluster starts at glen
            put (s.drop glen) (.Grapheme (s.take glen))
          else if ¬it.true_end then .needMoreData
          else put (s.drop s.length) (.Grapheme (s.take glen))
  | _ => .crash  -- panic!() (console_elem.rs:90)

/-- Embeds `IterElements::consume_from_raw` (console_elem.rs:169-184). -/
def IterElements.consume_from_raw (it : IterElements) :
    StepOut (ConsoleElem × IterElements) :=
  match it.known_segment with
  | .rawBytes (b :: rest) =>
    .ok (.NonUTF8Data b,
      { it with known_segment := if rest = [] then .none else .rawBytes rest })
  | _ => .crash  -- panic!() guard, or remaining[0] on an empty slice

/-- Embeds `IterElements::try_get_next_element` (console_elem.rs:188-198). -/
def IterElements.try_get_next_element (it : IterElements) :
    StepOut (ConsoleElem × IterElements) :=
  match (match it.known_segment with
         | .none => it.try_fetch_next_known
         | _ => .ok it) with
  | .needMoreData => .needMoreData
  | .crash => .crash
  | .ok it1 =>
    match it1.known_segment with
    | .none => .crash  -- unreachable!() (console_elem.rs:194)
    | .rawBytes _ => it1.consume_from_raw
    | .validUtf8 _ => it1.consume_from_utf8

/-- `IterElements::slop_bytes` (console_elem.rs:204-212). -/
def IterElements.slop_bytes (it : IterElements) : Nat :=
  it.remaining.length + (segBytes it.known_segment).length

/-- Result of a full driver run: the final handler state, or a panic. -/
inductive DriverRes (σ : Type) where
  | ok (st : σ)
  | crashed
deriving DecidableEq, Repr

/-- The loop of `for_each_console_element` (console_elem.rs:229-247).  The
caller-supplied handler is modelled as a pure state update; `chunks` lists the
successive results of `i.read` (an exhausted source yields `[]`, and every
chunk fits the free buffer space — the runs below use chunks far below the 256
byte capacity).  On `NeedMoreData` with the source not yet exhausted, the slop
bytes (`known_segment` bytes followed by `remaining`, exactly the unconsumed
buffer tail the source's `copy_within` slides to the front) are prefixed onto
the next read.  `fuel` bounds the iterations; `Option.none` = fuel ran out. -/
def for_each_loop {σ : Type} (handle : σ → ConsoleElem → σ) :
    Nat → IterElements → List (List Nat) → Bool → σ → Option (DriverRes σ)
  | 0, _, _, _, _ => Option.none
  | fuel + 1, it, chunks, alreadyHitEnd, st =>
    match it.try_get_next_element with
    | .ok (elem, it1) =>
      for_each_loop handle fuel it1 chunks alreadyHitEnd (handle st elem)
    | .crash => Option.some .crashed
    | .needMoreData =>
      if alreadyHitEnd then Option.some (.ok st)
      else
        let slop := segBytes it.known_segment ++ it.remaining
        let chunk := chunks.headD []
        let hitEnd := chunk = []
        for_each_loop handle fuel (IterElements.new (slop ++ chunk) hitEnd)
          (chunks.drop 1) hitEnd st

/-- Embeds `for_each_console_element` (console_elem.rs:216-248): first bounded
read, then the decode loop. -/
def for_each_console_element {σ : Type} (handle : σ → ConsoleElem → σ)
    (fuel : Nat) (chunks : List (List Nat)) (st : σ) : Option (DriverRes σ) :=
  let chunk := chunks.headD []
  let hitEnd := chunk = []
  for_each_loop handle fuel (IterElements.new chunk hitEnd) (chunks.drop 1) hitEnd st

/-- A handler that just collects the elements in order. -/
def collectElems (es : List ConsoleElem) (e : ConsoleElem) : List ConsoleElem :=
  es ++ [e]

/- ----------------------------------------------------------------
   src/stream_colors.rs
   ---------------------------------------------------------------- -/

/-- `ColorizerConfig` (stream_colors.rs:18-23). -/
structure ColorizerConfig where
  supports_rgb24 : Bool
  wraps_after : Option Nat
  tab_size : Nat
  flush_on_newline : Bool
deriving DecidableEq, Repr

/-- The `Default` impl (stream_colors.rs:26-35). -/
def ColorizerConfig.default : ColorizerConfig := ⟨true, Option.none, 8, true⟩

/-- One effect on the output sink: a write of some bytes, or a flush. -/
inductive OutEvent where
  | write (bs : List Nat)
  | flush
deriving DecidableEq, Repr

/-- Decimal digit bytes of `n`, most significant first (the bytes `write!`
produces for a {r}-style interpolation of an unsigned integer). -/
def decimalDigits (n : Nat) : List Nat :=
  if h : n < 10 then [0x30 + n]
  else decimalDigits (n / 10) ++ [0x30 + n % 10]
termination_by n
decreasing_by exact Nat.div_lt_self (by omega) (by omega)

/-- Embeds `Color::write_as_24bit_ansi` (console_color.rs:76-80): the bytes of
"\x1b[38;2;" ++ r ++ ";" ++ g ++ ";" ++ b ++ "m". -/
def ansi24Bytes (c : Color) : List Nat :=
  [0x1B, 0x5B, 0x33, 0x38, 0x3B, 0x32, 0x3B] ++ decimalDigits c.r ++ [0x3B] ++
    decimalDigits c.g ++ [0x3B] ++ decimalDigits c.b ++ [0x6D]

/-- Embeds `Color::write_as_paletted_ansi` (console_color.rs:82-89). -/
def ansiPalettedBytes (c : Color) : List Nat :=
  let p := COLOR_LOOKUP_at c
  [0x1B, 0x5B] ++ decimalDigits p.1 ++ [0x3B] ++ decimalDigits p.2 ++ [0x6D]

/-- The config-dependent color emission used throughout `copy_colorized`. -/
def emitColor (c : Color) (cfg : ColorizerConfig) : List Nat :=
  if cfg.supports_rgb24 then ansi24Bytes c else ansiPalettedBytes c

/-- `usize::saturating_add`. -/
def saturating_add_usize (a b : Nat) : Nat := min (a + b) (USIZE - 1)

/-- The state the `copy_colorized` closure threads: tracked cursor position
(column, row), last applied color, and the output events so far. -/
structure ColorizerState where
  position : Nat × Nat
  color : Color
  out : List OutEvent
deriving DecidableEq, Repr

/-- Embeds the per-element body of the `copy_colorized` closure
(stream_colors.rs:59-178).  The positional policy is a function of the cell
position (the `Flag`/`Image` policies are pure in their state).  Note the
`MoveCursor` arms keep the source's `d as usize` wrapping cast inside
`saturating_add`/`saturating_sub` verbatim. -/
def colorize_step (pol : Nat × Nat → Color) (cfg : ColorizerConfig)
    (st : ColorizerState) (elem : ConsoleElem) : ColorizerState :=
  let wrap_column := cfg.wraps_after.getD (USIZE - 1)  -- unwrap_or(usize::MAX)
  match elem with
  | .CarriageReturn =>
    { st with position := (0, st.position.2), out := st.out ++ [.write [0x0D]] }
  | .Newline =>
    { st with
      position := (0, st.position.2 + 1),
      out := st.out ++ [.write [0x0A]] ++
        (if cfg.flush_on_newline then [.flush] else []) }
  | .Tab =>
    let col := (st.position.1 / cfg.tab_size + 1) * cfg.tab_size
    let col := if wrap_column ≤ col then wrap_column - 1 else col
    { st with position := (col, st.position.2), out := st.out ++ [.write [0x09]] }
  | .Grapheme g =>
    let new_color := pol st.position
    let (color1, emits) :=
      if new_color ≠ st.color then
        (new_color, [OutEvent.write (emitColor new_color cfg)])
      else (st.color, [])
    let col1 := st.position.1 + 1
    let pos1 :=
      if wrap_column ≤ col1 then (col1 - wrap_column, st.position.2 + 1)
      else (col1, st.position.2)
    { position := pos1, color := color1, out := st.out ++ emits ++ [.write g] }
  | .OtherNonPrinting c =>
    { st with out := st.out ++ [.write (utf8Encode c)] }
  | .Ansi esc =>
    match parse_ansi_type esc with
    | .ResetStyle =>
      { st with out := st.out ++ [.write esc, .write (emitColor st.color cfg)] }
    | .SetColor => st
    | .SetCursor col row =>
      { st with
        position := (col.getD st.position.1, row.getD st.position.2),
        out := st.out ++ [.write esc] }
    | .MoveCursor dx dy =>
      let c1 :=
        match dx with
        | Option.some d =>
          if 0 < d then saturating_add_usize st.position.1 (isizeToUsize d)
          else st.position.1 - isizeToUsize d  -- saturating_sub(d as usize)
        | Option.none => st.position.1
      let r1 :=
        match dy with
        | Option.some d =>
          if 0 < d then saturating_add_usize st.position.2 (isizeToUsize d)
          else st.position.2 - isizeToUsize d
        | Option.none => st.position.2
      { st with position := (c1, r1), out := st.out ++ [.write esc] }
    | .Other => { st with out := st.out ++ [.write esc] }
  | .NonUTF8Data b => { st with out := st.out ++ [.write [b]] }

/-- Embeds `copy_colorized` (stream_colors.rs:47-179): query and emit the
color for (0, 0), then drive the element decoder with the re-coloring
handler. -/
def copy_colorized (pol : Nat × Nat → Color) (cfg : ColorizerConfig)
    (fuel : Nat) (chunks : List (List Nat)) : Option (DriverRes ColorizerState) :=
  let c0 := pol (0, 0)
  let st0 : ColorizerState := ⟨(0, 0), c0, [.write (emitColor c0 cfg)]⟩
  for_each_console_element (colorize_step pol cfg) fuel chunks st0

/- ----------------------------------------------------------------
   Helper lemmas
   ---------------------------------------------------------------- -/

/-- `min_by_key` never returns `none` on a non-empty list. -/
theorem min_by_key_isSome {α : Type} (key : α → Nat) (x : α) (xs : List α) :
    (min_by_key key (x :: xs)).isSome := by
  rw [min_by_key]
  cases min_by_key key xs with
  | none => rfl
  | some y => by_cases h : key x ≤ key y <;> simp [h]

/-- On a non-empty list `min_by_key` yields some element. -/
theorem min_by_key_some {α : Type} (key : α → Nat) (l : List α) (h : l ≠ []) :
    ∃ z, min_by_key key l = Option.some z := by
  cases l with
  | nil => exact absurd rfl h
  | cons x xs =>
    rcases hm : min_by_key key (x :: xs) with _ | z
    · have := min_by_key_isSome key x xs
      rw [hm] at this
      simp at this
    · exact ⟨z, rfl⟩

/-- Characterization of `min_by_key`: the result is the first element of the
list achieving the minimal key — everything before it has a strictly larger
key, everything after it a larger-or-equal key. -/
theorem min_by_key_spec {α : Type} (key : α → Nat) :
    ∀ (l : List α) (z : α), min_by_key key l = Option.some z →
      ∃ l1 l2, l = l1 ++ z :: l2 ∧
        (∀ x ∈ l1, key z < key x) ∧ (∀ x ∈ l2, key z ≤ key x) := by
  intro l
  induction l with
  | nil => intro z h; simp [min_by_key] at h
  | cons x xs ih =>
    intro z h
    rw [min_by_key] at h
    rcases hmin : min_by_key key xs with _ | y
    · rw [hmin] at h
      cases h
      have hxs : xs = [] := by
        cases xs with
        | nil => rfl
        | cons a as =>
          have := min_by_key_isSome key a as
          rw [hmin] at this
          simp at this
      subst hxs
      exact ⟨[], [], rfl, by simp, by simp⟩
    · rw [hmin] at h
      dsimp only at h
      obtain ⟨l1, l2, heq, hlt, hle⟩ := ih y hmin
      by_cases hk : key x ≤ key y
      · rw [if_pos hk] at h
        cases h
        refine ⟨[], xs, rfl, by simp, ?_⟩
        intro w hw
        rw [heq] at hw
        rcases List.mem_append.mp hw with hw1 | hw2
        · exact le_trans hk (le_of_lt (hlt w hw1))
        · rcases List.mem_cons.mp hw2 with rfl | hw3
          · exact hk
          · exact le_trans hk (hle w hw3)
      · rw [if_neg hk] at h
        cases h
        refine ⟨x :: l1, l2, by rw [heq, List.cons_append], ?_, hle⟩
        intro w hw
        rcases List.mem_cons.mp hw with rfl | hw1
        · omega
        · exact hlt w hw1

set_option maxRecDepth 4000 in
/-- Per-channel bound for the fixed-point blend: flooring `t * 255 / 256`
moves a `u8` channel by at most 1. -/
theorem interp_chan_close :
    ∀ t, t < 256 → absDiff (t * 255 % 2 ^ 16 / 2 ^ 8 % 2 ^ 8) t ≤ 1 := by decide

/-- Hex digits round-trip for values < 16. -/
theorem hexDigitUpper_val : ∀ d, d < 16 → hexDigitVal (hexDigitUpper d) = Option.some d := by
  decide

/-- Parsing the two hex digits of a byte folds it into the accumulator. -/
theorem parseHexAux_pair (acc n : Nat) (hn : n < 256) (rest : List Nat) :
    parseHexAux acc
        (hexDigitUpper (n / 16 % 16) :: hexDigitUpper (n % 16) :: rest) =
      parseHexAux (acc * 256 + n) rest := by
  have h1 : n / 16 % 16 < 16 := Nat.mod_lt _ (by omega)
  have h2 : n % 16 < 16 := Nat.mod_lt _ (by omega)
  simp only [parseHexAux, hexDigitUpper_val _ h1, hexDigitUpper_val _ h2]
  congr 1
  omega

/-- Running the driver with any pure handler is the same as collecting the
elements and folding the handler over them afterwards (the decoding steps do
not depend on the handler's state). -/
theorem for_each_loop_fold {σ : Type} (f : σ → ConsoleElem → σ) :
    ∀ (fuel : Nat) (it : IterElements) (chunks : List (List Nat)) (hitEnd : Bool)
      (st : σ) (es : List ConsoleElem),
      for_each_loop f fuel it chunks hitEnd (es.foldl f st) =
        (match for_each_loop collectElems fuel it chunks hitEnd es with
         | Option.some (.ok es1) => Option.some (DriverRes.ok (es1.foldl f st))
         | Option.some .crashed => Option.some DriverRes.crashed
         | Option.none => Option.none) := by
  intro fuel
  induction fuel with
  | zero => intro it chunks hitEnd st es; rfl
  | succ n ih =>
    intro it chunks hitEnd st es
    rw [for_each_loop, for_each_loop]
    cases h : it.try_get_next_element with
    | ok p =>
      obtain ⟨elem, it1⟩ := p
      have hstep : f (es.foldl f st) elem = (collectElems es elem).foldl f st := by
        simp [collectElems, List.foldl_append]
      simp only
      rw [hstep]
      exact ih it1 chunks hitEnd st (collectElems es elem)
    | crash => rfl
    | needMoreData =>
      cases hitEnd with
      | true => simp
      | false =>
        simp only [Bool.false_eq_true, if_false]
        exact ih _ _ _ st es

/- ----------------------------------------------------------------
   Claim theorems
   ---------------------------------------------------------------- -/

/-- C1: the claim says every input byte reaches the handler inside exactly one
element for every chunking.  Evaluating the faithful model on the single-byte
input 0xC3 (an incomplete two-byte UTF-8 head) delivered as one chunk shows the
driver finishing successfully with NO elements emitted: the reassembled bytes
are `[]`, not `[0xC3]` — the byte is dropped, because
`try_fetch_next_known` returns NeedMoreData for an incomplete multi-byte tail
even on the final chunk and the driver's exhausted-source fallback discards
the slop. -/
theorem c1_round_trip_fails_byte_dropped :
    for_each_console_element collectElems 10 [[0xC3]] [] =
      Option.some (DriverRes.ok []) ∧
    elemsBytes [] ≠ [0xC3] :=
  ⟨rfl, by decide⟩

/-- C2: the claim says a non-empty buffer with `is_final_chunk = true` never
yields NeedMoreData.  Evaluating the model: the non-empty buffer `[0xC3]`
(incomplete two-byte UTF-8 sequence) with `true_end = true` makes
`try_get_next_element` return NeedMoreData — `try_fetch_next_known` never
consults `true_end`. -/
theorem c2_final_chunk_still_needs_more_data :
    IterElements.try_get_next_element (IterElements.new [0xC3] true) =
      StepOut.needMoreData := rfl

/-- C3: three of the four example classifications hold, but
"\x1b[3;7H" classifies as `SetCursor(Some(0), Some(2))`, not
`SetCursor(Some(6), Some(2))`: `take_one_argument` returns the remainder still
carrying the `;`, so the column argument parses as the default 1 and maps to
0-based 0. -/
theorem c3_classifier_examples :
    parse_ansi_type seqReset = AnsiCodeType.ResetStyle ∧
    parse_ansi_type seqColor = AnsiCodeType.SetColor ∧
    parse_ansi_type seqUp5 = AnsiCodeType.MoveCursor Option.none (Option.some (-5)) ∧
    parse_ansi_type seqHome37 =
      AnsiCodeType.SetCursor (Option.some 0) (Option.some 2) ∧
    AnsiCodeType.SetCursor (Option.some 0) (Option.some 2) ≠
      AnsiCodeType.SetCursor (Option.some 6) (Option.some 2) := by decide

/-- C4: the claim says a missing argument takes the per-code default (1 for
cursor moves, 1 before 0-based conversion for cursor sets).  Evaluating the
model: `take_one_argument` returns 0 — not the supplied default — for an empty
argument string, so "\x1b[A" classifies as `MoveCursor(None, Some(0))`, and
"\x1b[H"/"\x1b[G" wrap `0 - 1` to `usize::MAX` in the `(col - 1) as usize`
cast. -/
theorem c4_missing_argument_yields_zero :
    parse_ansi_type seqUpDefault =
      AnsiCodeType.MoveCursor Option.none (Option.some 0) ∧
    parse_ansi_type seqHomeDefault =
      AnsiCodeType.SetCursor (Option.some (USIZE - 1)) (Option.some (USIZE - 1)) ∧
    parse_ansi_type seqColDefault =
      AnsiCodeType.SetCursor (Option.some (USIZE - 1)) Option.none := by decide

/-- C5: the claim says `MoveCursor(Some(-2), None)` at column 5 yields column
3.  Evaluating the engine model on the sequence "\x1b[2D" (which classifies as
`MoveCursor(Some(-2), None)`) at tracked position (5, 0): the code computes
`5.saturating_sub((-2) as usize) = 5.saturating_sub(2^64 - 2) = 0`, not 3; the
sequence itself is still forwarded unchanged. -/
theorem c5_negative_move_clamps_to_zero :
    colorize_step (fun _ => ⟨0, 0, 0⟩) ColorizerConfig.default
        ⟨(5, 0), ⟨0, 0, 0⟩, []⟩ (.Ansi [0x1B, 0x5B, 0x32, 0x44]) =
      ⟨(0, 0), ⟨0, 0, 0⟩, [.write [0x1B, 0x5B, 0x32, 0x44]]⟩ := by
  rfl

/-- C6: the claim says the decode step is total and the escape scan never
slices the buffer inside a multi-byte character.  Evaluating the model on
ESC followed by the two-byte character U+00E9 (bytes 1B C3 A9, valid UTF-8):
the scan's `remaining = &remaining[1..]` slices at byte offset 1 inside the
two-byte character and panics, with either value of the final flag. -/
theorem c6_escape_scan_panics_on_multibyte :
    IterElements.try_get_next_element (IterElements.new [0x1B, 0xC3, 0xA9] true) =
      StepOut.crash ∧
    IterElements.try_get_next_element (IterElements.new [0x1B, 0xC3, 0xA9] false) =
      StepOut.crash :=
  ⟨rfl, rfl⟩

/-- C7: for any constant-color policy and either flush setting, processing
"A\nB" with `supports_rgb24 = true` emits exactly one 24-bit color escape, at
the very start, then 'A', the line break (followed by exactly one flush iff
`flush_on_newline`), then 'B' — no second color emission anywhere; the engine
finishes at tracked position (1, 1) with the color unchanged. -/
theorem c7_end_to_end_single_color_emission (c : Color) (fl : Bool) :
    copy_colorized (fun _ => c) ⟨true, Option.none, 8, fl⟩ 10 [[0x41, 0x0A, 0x42]] =
      Option.some (DriverRes.ok
        ⟨(1, 1), c,
          [.write (ansi24Bytes c), .write [0x41], .write [0x0A]] ++
            (if fl then [.flush] else []) ++ [.write [0x42]]⟩) := by
  have hstart : copy_colorized (fun _ => c) ⟨true, Option.none, 8, fl⟩ 10
      [[0x41, 0x0A, 0x42]] =
      for_each_loop (colorize_step (fun _ => c) ⟨true, Option.none, 8, fl⟩) 10
        (IterElements.new [0x41, 0x0A, 0x42] false) [] false
        ⟨(0, 0), c, [.write (ansi24Bytes c)]⟩ := rfl
  have hcollect : for_each_loop collectElems 10
      (IterElements.new [0x41, 0x0A, 0x42] false) [] false [] =
      Option.some (DriverRes.ok
        [.Grapheme [0x41], .Newline, .Grapheme [0x42]]) := rfl
  have hfold := for_each_loop_fold
    (colorize_step (fun _ => c) ⟨true, Option.none, 8, fl⟩) 10
    (IterElements.new [0x41, 0x0A, 0x42] false) [] false
    ⟨(0, 0), c, [.write (ansi24Bytes c)]⟩ []
  rw [hcollect] at hfold
  rw [hstart]
  rw [show ([] : List ConsoleElem).foldl
        (colorize_step (fun _ => c) ⟨true, Option.none, 8, fl⟩)
        ⟨(0, 0), c, [.write (ansi24Bytes c)]⟩ =
      (⟨(0, 0), c, [.write (ansi24Bytes c)]⟩ : ColorizerState) from rfl] at hfold
  rw [hfold]
  cases fl <;>
    simp [colorize_step, List.foldl, emitColor, USIZE]

/-- Witness for C7 at a concrete color and with flushing enabled. -/
theorem c7_end_to_end_single_color_emission_witness :
    copy_colorized (fun _ => Color.mk 10 20 30) ⟨true, Option.none, 8, true⟩ 10
        [[0x41, 0x0A, 0x42]] =
      Option.some (DriverRes.ok
        ⟨(1, 1), Color.mk 10 20 30,
          [.write (ansi24Bytes (Color.mk 10 20 30)), .write [0x41], .write [0x0A]] ++
            (if true then [.flush] else []) ++ [.write [0x42]]⟩) :=
  c7_end_to_end_single_color_emission ⟨10, 20, 30⟩ true

/-- C8: for all u8 colors and every fixed-point weight `beta ≤ 255` (the value
of `(alpha * 255f32) as u16` for any alpha in [0.0, 1.0], with beta = 0 at
alpha = 0.0 and beta = 255 at alpha = 1.0), interpolating a color with itself
returns the color, and weights 0 / 255 return the first / second endpoint, in
each case with every channel off by at most 1. -/
theorem c8_rgb_interpolate_endpoints (a b c : Color) (beta : Nat)
    (har : a.r < 256) (hag : a.g < 256) (hab : a.b < 256)
    (hbr : b.r < 256) (hbg : b.g < 256) (hbb : b.b < 256)
    (hcr : c.r < 256) (hcg : c.g < 256) (hcb : c.b < 256)
    (hbeta : beta ≤ 255) :
    (c.rgb_interpolate c beta).chanDistLe1 c ∧
    (a.rgb_interpolate b 0).chanDistLe1 a ∧
    (a.rgb_interpolate b 255).chanDistLe1 b := by
  have hsum : ∀ t : Nat, t * (255 - beta) + t * beta = t * 255 := fun t => by
    rw [← Nat.mul_add, Nat.sub_add_cancel hbeta]
  refine ⟨?_, ?_, ?_⟩ <;> simp only [Color.rgb_interpolate, Color.chanDistLe1]
  · rw [hsum, hsum, hsum]
    exact ⟨interp_chan_close _ hcr, interp_chan_close _ hcg, interp_chan_close _ hcb⟩
  · simp only [Nat.sub_zero, Nat.mul_zero, Nat.add_zero]
    exact ⟨interp_chan_close _ har, interp_chan_close _ hag, interp_chan_close _ hab⟩
  · simp only [Nat.sub_self, Nat.mul_zero, Nat.zero_add]
    exact ⟨interp_chan_close _ hbr, interp_chan_close _ hbg, interp_chan_close _ hbb⟩

/-- Witness for C8 at concrete colors and weight. -/
theorem c8_rgb_interpolate_endpoints_witness :
    (10 : Nat) ≤ 255 ∧
    ((Color.mk 7 8 9).rgb_interpolate (Color.mk 7 8 9) 10).chanDistLe1 (Color.mk 7 8 9) ∧
    ((Color.mk 1 2 3).rgb_interpolate (Color.mk 4 5 6) 0).chanDistLe1 (Color.mk 1 2 3) ∧
    ((Color.mk 1 2 3).rgb_interpolate (Color.mk 4 5 6) 255).chanDistLe1 (Color.mk 4 5 6) :=
  ⟨by decide,
   c8_rgb_interpolate_endpoints ⟨1, 2, 3⟩ ⟨4, 5, 6⟩ ⟨7, 8, 9⟩ 10
     (by decide) (by decide) (by decide) (by decide) (by decide) (by decide)
     (by decide) (by decide) (by decide) (by decide)⟩

set_option maxRecDepth 4000 in
/-- C9: for every u8 color, the lookup index is injective and covers only the
2^24 table slots (so the loop writing every (r, g, b) fills the whole table,
each color exactly once), and the stored code pair is the one of the palette
entry minimizing squared Euclidean distance, the first such entry on ties:
the palette splits around the chosen entry with all earlier entries at
strictly greater `dist2` and all entries at greater-or-equal `dist2`.  The
table is modelled as a pure function of the color, which is exactly its
read-only-after-construction lifecycle. -/
theorem c9_palette_lookup_nearest_first (c : Color)
    (hr : c.r < 256) (hg : c.g < 256) (hb : c.b < 256) :
    c.lookup_index < 2 ^ 24 ∧
    (∀ c2 : Color, c2.r < 256 → c2.g < 256 → c2.b < 256 →
        c2.lookup_index = c.lookup_index → c2 = c) ∧
    COLOR_LOOKUP_at c = (color_lookup_entry c).1 ∧
    (∃ l1 l2, ANSI_PALETTE = l1 ++ color_lookup_entry c :: l2 ∧
        (∀ e ∈ l1, (color_lookup_entry c).2.dist2 c < e.2.dist2 c) ∧
        (∀ e ∈ ANSI_PALETTE, (color_lookup_entry c).2.dist2 c ≤ e.2.dist2 c)) := by
  obtain ⟨z, hz⟩ :=
    min_by_key_some (fun e => e.2.dist2 c) ANSI_PALETTE (by decide)
  have hentry : color_lookup_entry c = z := by
    rw [color_lookup_entry, hz]
    rfl
  obtain ⟨l1, l2, heq, hlt, hle⟩ := min_by_key_spec (fun e => e.2.dist2 c) _ z hz
  refine ⟨?_, ?_, rfl, ?_⟩
  · simp only [Color.lookup_index]
    omega
  · intro c2 h2r h2g h2b hidx
    obtain ⟨r, g, b⟩ := c
    obtain ⟨r2, g2, b2⟩ := c2
    simp only [Color.lookup_index] at hidx
    simp only at h2r h2g h2b hr hg hb
    simp only [Color.mk.injEq]
    refine ⟨?_, ?_, ?_⟩ <;> omega
  · refine ⟨l1, l2, by rw [hentry]; exact heq, ?_, ?_⟩
    · intro e he
      rw [hentry]
      exact hlt e he
    · intro e he
      rw [hentry]
      rw [heq] at he
      rcases List.mem_append.mp he with h1 | h2
      · exact le_of_lt (hlt e h1)
      · rcases List.mem_cons.mp h2 with rfl | h3
        · exact le_refl _
        · exact hle e h3

/-- Witness for C9 at the concrete color (10, 20, 30). -/
theorem c9_palette_lookup_nearest_first_witness :
    (Color.mk 10 20 30).lookup_index < 2 ^ 24 ∧
    (∀ c2 : Color, c2.r < 256 → c2.g < 256 → c2.b < 256 →
        c2.lookup_index = (Color.mk 10 20 30).lookup_index → c2 = Color.mk 10 20 30) ∧
    COLOR_LOOKUP_at (Color.mk 10 20 30) = (color_lookup_entry (Color.mk 10 20 30)).1 ∧
    (∃ l1 l2, ANSI_PALETTE = l1 ++ color_lookup_entry (Color.mk 10 20 30) :: l2 ∧
        (∀ e ∈ l1,
          (color_lookup_entry (Color.mk 10 20 30)).2.dist2 (Color.mk 10 20 30) <
            e.2.dist2 (Color.mk 10 20 30)) ∧
        (∀ e ∈ ANSI_PALETTE,
          (color_lookup_entry (Color.mk 10 20 30)).2.dist2 (Color.mk 10 20 30) ≤
            e.2.dist2 (Color.mk 10 20 30))) :=
  c9_palette_lookup_nearest_first ⟨10, 20, 30⟩ (by decide) (by decide) (by decide)

/-- C10: formatting any u8 color as its 6-digit uppercase hex string and
re-parsing it yields the original color. -/
theorem c10_hex_round_trip (c : Color)
    (hr : c.r < 256) (hg : c.g < 256) (hb : c.b < 256) :
    Color.from_str c.to_hex = Option.some c := by
  obtain ⟨r, g, b⟩ := c
  simp only at hr hg hb
  rw [Color.to_hex]
  rw [Color.from_str]
  simp only [List.length_cons, List.length_nil]
  rw [if_neg (by omega)]
  rw [parseHexNat]
  rw [if_neg (by simp)]
  rw [parseHexAux_pair 0 r hr, parseHexAux_pair _ g hg, parseHexAux_pair _ b hb]
  rw [parseHexAux]
  simp only [Option.map_some', Option.some.injEq, Color.from_rgb, Color.mk.injEq]
  refine ⟨?_, ?_, ?_⟩ <;> omega

/-- Witness for C10 at the concrete color (171, 205, 239). -/
theorem c10_hex_round_trip_witness :
    Color.from_str (Color.mk 171 205 239).to_hex = Option.some (Color.mk 171 205 239) :=
  c10_hex_round_trip ⟨171, 205, 239⟩ (by decide) (by decide) (by decide)

end PrettyCat
